import Mathlib

/-!
Verification of the batch import / conflict-resolution pipeline of the
waste_system_django repository.

Shallow embedding of:
  - MedicalWasteManagementSystem/date_validators.py (validate_yyyy_mm_format)
  - WasteManagement/batch_processor.py (WasteDataValidator.validate_row_data,
    WasteDataConflictManager.check_conflicts / categorize_rows,
    WasteBatchProcessor.process_batch_import)
  - WasteManagement/views.py (batch_import classification and write steps,
    process_batch_update retry loop, retry_on_lock, batch_import_departments)
  - WasteTransportation/views.py (batch_import retry loop)

Python floats are modelled as rationals; database tables are modelled as lists
of records; fallible storage reads are modelled as Except-valued functions
passed in as parameters.
-/

namespace WasteSystem

/-- A raw cell value as it arrives from `json.loads` of a submitted batch:
a JSON string, a JSON number, or null/absent. -/
inductive RawVal where
  | str (s : String)
  | num (q : ℚ)
  | null
deriving DecidableEq

/-- `row.get(key, default)` on a Python dict, with dicts modelled as
insertion-ordered association lists. -/
def rowGetD (row : List (String × RawVal)) (key : String) (dflt : RawVal) : RawVal :=
  match row.find? (fun p => p.1 == key) with
  | some p => p.2
  | none => dflt

/-- ASCII decimal digit test, the `\x5cd` character class over the inputs this
system feeds it. -/
def isDig (c : Char) : Bool :=
  decide ('0' ≤ c) && decide (c ≤ '9')

/-- Numeric value of a digit character. -/
def digitVal (c : Char) : ℕ := c.toNat - 48

/-- Value of a digit string read left to right. -/
def digitsVal (cs : List Char) : ℕ :=
  cs.foldl (fun a c => 10 * a + digitVal c) 0

/-- A nonempty all-digit character list. -/
def digitsOk (cs : List Char) : Bool :=
  !cs.isEmpty && cs.all isDig

/-- Strip surrounding whitespace (Python `str.strip`). -/
def trimChars (cs : List Char) : List Char :=
  ((cs.dropWhile Char.isWhitespace).reverse.dropWhile Char.isWhitespace).reverse

/-- `str.strip` lifted back to strings. -/
def strTrim (s : String) : String := ⟨trimChars s.data⟩

/-- Split a character list at every occurrence of `sep`. -/
def splitOnCharAux (sep : Char) : List Char → List Char × List (List Char)
  | [] => ([], [])
  | c :: rest =>
      let r := splitOnCharAux sep rest
      if c == sep then ([], r.1 :: r.2) else (c :: r.1, r.2)

/-- Split a character list at every occurrence of `sep` (like `str.split`). -/
def splitOnChar (sep : Char) (cs : List Char) : List (List Char) :=
  (splitOnCharAux sep cs).1 :: (splitOnCharAux sep cs).2

/-- Model of Python `float(s)` on a string: surrounding whitespace stripped,
optional sign, decimal digits with an optional fractional part. -/
def parseFloat (s : String) : Option ℚ :=
  let cs := trimChars s.data
  let signBody : Bool × List Char :=
    match cs with
    | '-' :: r => (true, r)
    | '+' :: r => (false, r)
    | r => (false, r)
  let signed : ℚ → ℚ := fun q => if signBody.1 then -q else q
  match splitOnChar '.' signBody.2 with
  | [ipart] =>
      if digitsOk ipart then some (signed (digitsVal ipart)) else none
  | [ipart, fpart] =>
      if (digitsOk ipart || ipart.isEmpty) && (digitsOk fpart || fpart.isEmpty)
          && !(ipart.isEmpty && fpart.isEmpty) then
        some (signed ((digitsVal ipart : ℚ)
          + (digitsVal fpart : ℚ) / (10 : ℚ) ^ fpart.length))
      else none
  | _ => none

/-- Model of Python `int(s)` on a string: stripped, optional sign, digits. -/
def parseInt (s : String) : Option ℤ :=
  let cs := trimChars s.data
  let signBody : Bool × List Char :=
    match cs with
    | '-' :: r => (true, r)
    | '+' :: r => (false, r)
    | r => (false, r)
  if digitsOk signBody.2 then
    some (if signBody.1 then -(digitsVal signBody.2 : ℤ) else (digitsVal signBody.2 : ℤ))
  else none

/-! ### date_validators.py -/

/-- `DateFormatStandards.MIN_YEAR`. -/
def MIN_YEAR : ℕ := 1970
/-- `DateFormatStandards.MAX_YEAR`. -/
def MAX_YEAR : ℕ := 9999
/-- `DateFormatStandards.MIN_MONTH`. -/
def MIN_MONTH : ℕ := 1
/-- `DateFormatStandards.MAX_MONTH`. -/
def MAX_MONTH : ℕ := 12

/-- `DateFormatStandards.INVALID_FORMAT_MSG`. -/
def INVALID_FORMAT_MSG : String := "日期格式錯誤，請使用YYYY-MM格式"
/-- `DateFormatStandards.INVALID_YEAR_MSG`. -/
def INVALID_YEAR_MSG : String := "年份必須在1970-9999之間"
/-- `DateFormatStandards.INVALID_MONTH_MSG`. -/
def INVALID_MONTH_MSG : String := "月份必須在01-12之間"
/-- `DateFormatStandards.EMPTY_DATE_MSG`. -/
def EMPTY_DATE_MSG : String := "日期不能為空"

/-- The anchored regular expression `DATABASE_PATTERN`: four digits, a dash,
then `0` followed by `1`-`9` or `1` followed by `0`-`2`. -/
def matchesDatabasePattern (s : String) : Bool :=
  match s.data with
  | [y1, y2, y3, y4, h, m1, m2] =>
      isDig y1 && isDig y2 && isDig y3 && isDig y4 && (h == '-')
        && ((m1 == '0' && decide ('1' ≤ m2) && decide (m2 ≤ '9'))
          || (m1 == '1' && decide ('0' ≤ m2) && decide (m2 ≤ '2')))
  | _ => false

/-- The year component `int(year_str)` of a pattern-matching string. -/
def yearOf (s : String) : ℕ := digitsVal (s.data.take 4)

/-- The month component `int(month_str)` of a pattern-matching string. -/
def monthOf (s : String) : ℕ := digitsVal (s.data.drop 5)

/-- `validate_yyyy_mm_format` (date_validators.py lines 36-76).  The final
`datetime.strptime` re-check is omitted: every string that has passed the
pattern and range checks parses successfully under `%Y-%m`, so that branch
cannot change the outcome. -/
def validate_yyyy_mm_format (dateStr : String) : Bool × String :=
  if dateStr = "" then (false, EMPTY_DATE_MSG)
  else
    let t := strTrim dateStr
    if matchesDatabasePattern t then
      if yearOf t < MIN_YEAR ∨ MAX_YEAR < yearOf t then (false, INVALID_YEAR_MSG)
      else if monthOf t < MIN_MONTH ∨ MAX_MONTH < monthOf t then (false, INVALID_MONTH_MSG)
      else (true, "")
    else (false, INVALID_FORMAT_MSG)

/-- `validate_yyyy_mm_format` applied to a raw cell: the `not date_str or not
isinstance(date_str, str)` guard sends every non-string (and the empty string)
to the empty-date message. -/
def validateDateVal (v : RawVal) : Bool × String :=
  match v with
  | .str s => validate_yyyy_mm_format s
  | _ => (false, EMPTY_DATE_MSG)

/-- `validate_date_format` (legacy wrapper, default `%Y-%m` path). -/
def validate_date_format (v : RawVal) : Bool :=
  (validateDateVal v).1

/-- C9 counterexample: date validation does not emit one single canonical
error message.  A year out of range ("1800-05") is rejected with the
year-range message while a malformed month ("2024-13") is rejected with the
format message, and the two strings differ; moreover a string with leading
whitespace is accepted although it does not match the raw pattern. -/
theorem date_error_message_not_canonical :
    validate_yyyy_mm_format "1800-05" = (false, INVALID_YEAR_MSG)
    ∧ validate_yyyy_mm_format "2024-13" = (false, INVALID_FORMAT_MSG)
    ∧ validate_yyyy_mm_format "" = (false, EMPTY_DATE_MSG)
    ∧ INVALID_YEAR_MSG ≠ INVALID_FORMAT_MSG
    ∧ INVALID_FORMAT_MSG ≠ EMPTY_DATE_MSG
    ∧ matchesDatabasePattern " 2024-01" = false
    ∧ validate_yyyy_mm_format " 2024-01" = (true, "") := by
  refine ⟨by decide, by decide, by decide, by decide, by decide, by decide, by decide⟩

/-- C9 amended: validation accepts exactly the nonempty strings whose trimmed
form matches the fixed YYYY-MM pattern with year 1970-9999 and month 1-12, and
every rejected input receives one of four distinct check-specific messages
(empty date, pattern mismatch, year range, month range) rather than a single
canonical string. -/
theorem validate_yyyy_mm_characterization (s : String) :
    ((validate_yyyy_mm_format s).1 = true ↔
      (s ≠ "" ∧ matchesDatabasePattern (strTrim s) = true ∧
        MIN_YEAR ≤ yearOf (strTrim s) ∧ yearOf (strTrim s) ≤ MAX_YEAR ∧
        MIN_MONTH ≤ monthOf (strTrim s) ∧ monthOf (strTrim s) ≤ MAX_MONTH))
    ∧ ((validate_yyyy_mm_format s).1 = false →
        (validate_yyyy_mm_format s).2 = EMPTY_DATE_MSG ∨
        (validate_yyyy_mm_format s).2 = INVALID_FORMAT_MSG ∨
        (validate_yyyy_mm_format s).2 = INVALID_YEAR_MSG ∨
        (validate_yyyy_mm_format s).2 = INVALID_MONTH_MSG) := by
  unfold validate_yyyy_mm_format
  dsimp only
  split_ifs with h1 h2 h3 h4 <;>
    simp_all [MIN_YEAR, MAX_YEAR, MIN_MONTH, MAX_MONTH] <;> omega

/-! ### batch_processor.py -/

/-- A validated row of the monthly waste tables: the cleaned date plus the
cleaned numeric fields (`None` when the cell was blank). -/
structure CleanedRow where
  date : String
  nums : List (String × Option ℚ)
deriving DecidableEq

/-- `WasteDataConflictManager.check_conflicts` (batch_processor.py 71-91).
The storage read is passed in as an `Except`-valued function; the source wraps
it in `try/except` and the `except` branch returns the empty set. -/
def check_conflicts (read : List String → Except String (List String))
    (dates : List String) : List String :=
  if dates.isEmpty then []
  else
    match read dates with
    | .ok existing => existing
    | .error _ => []

/-- `WasteDataConflictManager.categorize_rows` (batch_processor.py 93-125),
indexed from `idx`: a row whose date is among the existing dates goes to the
update bucket when `override_conflicts` is set and to the conflict bucket
otherwise; a fresh date goes to the create bucket. -/
def categorizeAux (existing : List String) (override : Bool) (idx : ℕ) :
    List CleanedRow → List (ℕ × CleanedRow) × List (ℕ × CleanedRow) × List ℕ
  | [] => ([], [], [])
  | row :: rest =>
      let r := categorizeAux existing override (idx + 1) rest
      if existing.contains row.date then
        if override then (r.1, (idx, row) :: r.2.1, r.2.2)
        else (r.1, r.2.1, idx :: r.2.2)
      else ((idx, row) :: r.1, r.2.1, r.2.2)

/-- `categorize_rows` with enumeration starting at 0, as in the source. -/
def categorize_rows (rows : List CleanedRow) (existing : List String)
    (override : Bool) :
    List (ℕ × CleanedRow) × List (ℕ × CleanedRow) × List ℕ :=
  categorizeAux existing override 0 rows

/-- Closed form of `categorizeAux`: the three buckets are the three filters of
the enumerated input given by the decision table. -/
theorem categorizeAux_spec (existing : List String) (override : Bool)
    (idx : ℕ) (rows : List CleanedRow) :
    categorizeAux existing override idx rows =
      ((rows.enumFrom idx).filter (fun p => !existing.contains p.2.date),
        (rows.enumFrom idx).filter (fun p => existing.contains p.2.date && override),
        ((rows.enumFrom idx).filter
          (fun p => existing.contains p.2.date && !override)).map Prod.fst) := by
  induction rows generalizing idx with
  | nil => simp [categorizeAux]
  | cons row rest ih =>
      by_cases hc : row.date ∈ existing <;>
        cases override <;>
          simp [categorizeAux, List.enumFrom, ih, hc]

/-- The three buckets of `categorizeAux` exhaust the input. -/
theorem categorizeAux_length (existing : List String) (override : Bool)
    (idx : ℕ) (rows : List CleanedRow) :
    (categorizeAux existing override idx rows).1.length
      + (categorizeAux existing override idx rows).2.1.length
      + (categorizeAux existing override idx rows).2.2.length = rows.length := by
  induction rows generalizing idx with
  | nil => simp [categorizeAux]
  | cons row rest ih =>
      by_cases hc : row.date ∈ existing <;>
        cases override <;>
          (simp [categorizeAux, hc]
           have h := ih (idx + 1)
           omega)

/-- C1: for every batch, `categorize_rows` follows the decision table — a row
whose natural key is absent from the preloaded existing keys lands in the
create bucket; an existing key with override lands in the update bucket; an
existing key without override lands in the conflict bucket; nothing else lands
anywhere. -/
theorem categorize_rows_decision_table (rows : List CleanedRow)
    (existing : List String) (override : Bool) :
    (categorize_rows rows existing override).1
        = rows.enum.filter (fun p => !existing.contains p.2.date)
    ∧ (categorize_rows rows existing override).2.1
        = rows.enum.filter (fun p => existing.contains p.2.date && override)
    ∧ (categorize_rows rows existing override).2.2
        = (rows.enum.filter
            (fun p => existing.contains p.2.date && !override)).map Prod.fst := by
  have h := categorizeAux_spec existing override 0 rows
  rw [categorize_rows, h]
  exact ⟨rfl, rfl, rfl⟩

/-- C8 counterexample: a failing preload read is not propagated — it is
converted into the empty set, indistinguishable from a successful read that
found no conflicts. -/
theorem check_conflicts_error_not_propagated :
    check_conflicts (fun _ => .error "storage unavailable") ["2024-01"] = []
    ∧ check_conflicts (fun _ => .ok []) ["2024-01"] = [] :=
  ⟨rfl, rfl⟩

/-- C8 amended: when the preload read fails, `check_conflicts` does not retry
and does not propagate the storage error; it catches it and returns the empty
set as a normal result. -/
theorem check_conflicts_swallows_error
    (read : List String → Except String (List String)) (dates : List String)
    (e : String) (h : read dates = .error e) :
    check_conflicts read dates = [] := by
  unfold check_conflicts
  split_ifs with h1
  · rfl
  · rw [h]

/-- C8 witness. -/
theorem check_conflicts_swallows_error_witness :
    check_conflicts (fun _ => .error "db down") ["2024-02"] = [] :=
  check_conflicts_swallows_error _ ["2024-02"] "db down" rfl

/-- `float(value)` applied to a raw cell (numbers pass through, strings are
parsed, `None` raises — modelled as a parse failure). -/
def pyFloat (v : RawVal) : Option ℚ :=
  match v with
  | .num q => some q
  | .str s => parseFloat s
  | .null => none

/-- `value == "" or value is None` — the blank-cell test of
batch_processor.py line 49. -/
def isBlankCell (v : RawVal) : Bool :=
  v == .str "" || v == .null

/-- One iteration of the numeric-field loop of
`WasteDataValidator.validate_row_data` (batch_processor.py 48-60): a blank
cell cleans to `None`; a non-blank cell must parse as a float and must not be
negative, each failure with its field-named message. -/
def fieldOutcome (row : List (String × RawVal)) (f : String) :
    Except String (Option ℚ) :=
  let v := rowGetD row f (.str "")
  if isBlankCell v then .ok none
  else
    match pyFloat v with
    | none => .error (f ++ " 數值格式無效")
    | some q => if q < 0 then .error (f ++ " 不能為負數") else .ok (some q)

/-- The numeric-field loop of `validate_row_data` over the field list,
skipping the date field, accumulating cleaned values and errors in field
order. -/
def validateFields (row : List (String × RawVal)) :
    List String → List (String × Option ℚ) × List String
  | [] => ([], [])
  | f :: rest =>
      let r := validateFields row rest
      if f == "date" then r
      else
        match fieldOutcome row f with
        | .ok ov => ((f, ov) :: r.1, r.2)
        | .error m => (r.1, m :: r.2)

/-- The partially-cleaned output of `validate_row_data`: the date key is only
present once date validation has passed. -/
structure Cleaned where
  date : Option String
  nums : List (String × Option ℚ)
deriving DecidableEq

/-- `WasteDataValidator.validate_row_data` (batch_processor.py 21-62): an
invalid date short-circuits with the single date error; otherwise every named
field is cleaned or contributes a field-specific error. -/
def validate_row_data (row : List (String × RawVal)) (fields : List String) :
    Cleaned × List String :=
  if validate_date_format (rowGetD row "date" .null) then
    let ds := match rowGetD row "date" .null with
      | .str s => s
      | _ => ""
    let r := validateFields row fields
    (⟨some ds, r.1⟩, r.2)
  else (⟨none, []⟩, ["日期格式無效"])

/-- Modelled from the spec: the ImportResult accumulator of the missing
`MedicalWasteManagementSystem/shared_utils.py` `BatchProcessor`
(`initialize_results`, `add_failure`, `add_conflict`, `get_results`), whose
shape the spec fixes as `{total, success, failed: [{index, reason, data}],
conflicts: [{index, key, reason, data}]}`; `add_failure idx reason` appends to
`failed` and `add_conflict idx key reason` appends to `conflicts`. -/
structure ProcResults where
  total : ℕ
  success : ℕ
  failed : List (ℕ × String)
  conflicts : List (ℕ × String × String)
deriving DecidableEq

/-- The validation stage of `WasteBatchProcessor.process_batch_import`
(batch_processor.py 155-164), enumerating from `idx`: rows with errors become
failures carrying the errors joined by `"; "`, the rest are kept with their
original index. -/
def validateAll (fields : List String) :
    ℕ → List (List (String × RawVal)) → List (ℕ × String) × List (ℕ × CleanedRow)
  | _, [] => ([], [])
  | idx, row :: rest =>
      let r := validateAll fields (idx + 1) rest
      let v := validate_row_data row fields
      if v.2.isEmpty then
        (r.1, (idx, ⟨v.1.date.getD "", v.1.nums⟩) :: r.2)
      else ((idx, String.intercalate "; " v.2) :: r.1, r.2)

/-- `WasteBatchProcessor.process_batch_import` (batch_processor.py 138-202)
up to and including result assembly.  The storage read backing
`check_conflicts` is a parameter; both write paths are modelled as succeeding
(`success` counts the create and update buckets), which is the only part of
steps 4's database interaction the claims below depend on.  Returns the
results record together with the create, update and conflict buckets.
Note the conflict-reporting loop: the source iterates `conflict_indices`
(positions within the validated list) and searches `validated_rows` for an
entry whose ORIGINAL index equals that position, dropping the conflict when
no such entry exists. -/
def process_batch_import (read : List String → Except String (List String))
    (fields : List String) (rows : List (List (String × RawVal)))
    (override : Bool) :
    ProcResults × List (ℕ × CleanedRow) × List (ℕ × CleanedRow) × List ℕ :=
  let va := validateAll fields 0 rows
  if va.2.isEmpty then (⟨rows.length, 0, va.1, []⟩, [], [], [])
  else
    let existing := check_conflicts read (va.2.map (fun p => p.2.date))
    let cat := categorize_rows (va.2.map Prod.snd) existing override
    let conflictsOut := cat.2.2.filterMap (fun ci =>
      match va.2.find? (fun p => p.1 == ci) with
      | some p => some (ci, p.2.date, "資料已存在")
      | none => none)
    (⟨rows.length, cat.1.length + cat.2.1.length, va.1, conflictsOut⟩,
      cat.1, cat.2.1, cat.2.2)

/-- A blank cell never parses as a float. -/
theorem pyFloat_of_blank (v : RawVal) (h : isBlankCell v = true) :
    pyFloat v = none := by
  rcases v with s | q | _
  · have hs : s = "" := by simpa [isBlankCell] using h
    subst hs
    decide
  · simp [isBlankCell] at h
  · rfl

/-- A negative parsed value makes the field fail with the negative-amount
message. -/
theorem fieldOutcome_neg (row : List (String × RawVal)) (f : String) (q : ℚ)
    (hq : pyFloat (rowGetD row f (.str "")) = some q) (hneg : q < 0) :
    fieldOutcome row f = .error (f ++ " 不能為負數") := by
  unfold fieldOutcome
  by_cases hb : isBlankCell (rowGetD row f (.str "")) = true
  · rw [pyFloat_of_blank _ hb] at hq
    exact absurd hq (by simp)
  · simp only [Bool.not_eq_true] at hb
    simp [hb, hq, hneg]

/-- Adding a field in front never erases errors contributed by later
fields. -/
theorem validateFields_ne_nil_cons (row : List (String × RawVal)) (g : String)
    (rest : List String) (h : (validateFields row rest).2 ≠ []) :
    (validateFields row (g :: rest)).2 ≠ [] := by
  unfold validateFields
  by_cases hg : (g == "date") = true
  · simpa [hg] using h
  · simp only [Bool.not_eq_true] at hg
    cases ho : fieldOutcome row g <;> simp [hg, ho, h]

/-- A negative numeric field anywhere in the schema forces a nonempty error
list. -/
theorem validateFields_neg_ne_nil (row : List (String × RawVal))
    (fields : List String) (f : String) (q : ℚ) (hf : f ∈ fields)
    (hfd : f ≠ "date") (hq : pyFloat (rowGetD row f (.str "")) = some q)
    (hneg : q < 0) :
    (validateFields row fields).2 ≠ [] := by
  induction fields with
  | nil => cases hf
  | cons g rest ih =>
      rcases List.mem_cons.mp hf with hfg | hfr
      · subst hfg
        unfold validateFields
        have hgd : (f == "date") = false := by simp [hfd]
        simp [hgd, fieldOutcome_neg row f q hq hneg]
      · exact validateFields_ne_nil_cons row g rest (ih hfr)

/-- A negative numeric field makes `validate_row_data` report at least one
error. -/
theorem validate_row_data_neg_ne_nil (row : List (String × RawVal))
    (fields : List String) (f : String) (q : ℚ) (hf : f ∈ fields)
    (hfd : f ≠ "date") (hq : pyFloat (rowGetD row f (.str "")) = some q)
    (hneg : q < 0) :
    (validate_row_data row fields).2 ≠ [] := by
  unfold validate_row_data
  by_cases hd : validate_date_format (rowGetD row "date" .null) = true
  · simpa [hd] using validateFields_neg_ne_nil row fields f q hf hfd hq hneg
  · simp only [Bool.not_eq_true] at hd
    simp [hd]

/-- Closed form of the validation stage: failures and validated rows are the
two filterMaps of the enumerated batch. -/
theorem validateAll_spec (fields : List String) (idx : ℕ)
    (rows : List (List (String × RawVal))) :
    validateAll fields idx rows =
      ((rows.enumFrom idx).filterMap (fun p =>
          if (validate_row_data p.2 fields).2.isEmpty then none
          else some (p.1, String.intercalate "; " (validate_row_data p.2 fields).2)),
        (rows.enumFrom idx).filterMap (fun p =>
          if (validate_row_data p.2 fields).2.isEmpty then
            some (p.1, (⟨(validate_row_data p.2 fields).1.date.getD "",
              (validate_row_data p.2 fields).1.nums⟩ : CleanedRow))
          else none)) := by
  induction rows generalizing idx with
  | nil => simp [validateAll]
  | cons row rest ih =>
      by_cases he : (validate_row_data row fields).2 = [] <;>
        simp [validateAll, List.enumFrom, ih, he, List.filterMap_cons]

/-- Validation splits the batch: failures plus validated rows exhaust it. -/
theorem validateAll_length (fields : List String) (idx : ℕ)
    (rows : List (List (String × RawVal))) :
    (validateAll fields idx rows).1.length
      + (validateAll fields idx rows).2.length = rows.length := by
  induction rows generalizing idx with
  | nil => simp [validateAll]
  | cons row rest ih =>
      by_cases he : (validate_row_data row fields).2.isEmpty = true <;>
        (simp [validateAll, he]
         have h := ih (idx + 1)
         omega)

/-- The failed list of the assembled results is exactly the validation-stage
failures. -/
theorem process_failed_eq (read : List String → Except String (List String))
    (fields : List String) (rows : List (List (String × RawVal)))
    (override : Bool) :
    (process_batch_import read fields rows override).1.failed
      = (validateAll fields 0 rows).1 := by
  unfold process_batch_import
  by_cases hv : (validateAll fields 0 rows).2.isEmpty = true <;> simp [hv]

/-- Every entry of the create or update bucket of `categorize_rows` carries a
row of the input list. -/
theorem categorize_fst_mem (rows : List CleanedRow) (existing : List String)
    (override : Bool) :
    ∀ x ∈ (categorize_rows rows existing override).1
        ++ (categorize_rows rows existing override).2.1, x.2 ∈ rows := by
  intro x hx
  obtain ⟨i, c⟩ := x
  rw [categorize_rows, categorizeAux_spec] at hx
  rcases List.mem_append.mp hx with h | h <;>
    (have h2 := (List.mem_filter.mp h).1
     obtain ⟨-, hlt, hget⟩ := List.mem_enumFrom h2
     simp only [Nat.sub_zero] at hget
     rw [hget]
     apply List.getElem_mem)

/-- Every datum in the create or update bucket of `process_batch_import`
originates from the validated list. -/
theorem process_buckets_mem (read : List String → Except String (List String))
    (fields : List String) (rows : List (List (String × RawVal)))
    (override : Bool) :
    ∀ d ∈ ((process_batch_import read fields rows override).2.1
        ++ (process_batch_import read fields rows override).2.2.1).map Prod.snd,
      d ∈ (validateAll fields 0 rows).2.map Prod.snd := by
  intro d hd
  unfold process_batch_import at hd
  by_cases hv : (validateAll fields 0 rows).2.isEmpty = true
  · simp [hv] at hd
  · simp only [hv, Bool.false_eq_true, if_false] at hd
    obtain ⟨x, hx, hxd⟩ := List.mem_map.mp hd
    rw [← hxd]
    exact categorize_fst_mem _ _ _ x hx

/-- C5 amended: in the `WasteBatchProcessor` pipeline a row with any field
error is wholly rejected — it is reported once in the failed list with all of
its field errors joined by "; ", it never enters the validated list, and
every datum in the create or update buckets originates from some other,
validated, row; moreover a numeric field that parses negative always produces
a field error.  (In the department import, by contrast, field errors are
per-column: see the C5 counterexample.) -/
theorem row_with_field_errors_wholly_rejected
    (read : List String → Except String (List String)) (fields : List String)
    (rows : List (List (String × RawVal))) (override : Bool) (idx : ℕ)
    (row : List (String × RawVal)) (hrow : rows[idx]? = some row)
    (herr : (validate_row_data row fields).2 ≠ []) :
    ((idx, String.intercalate "; " (validate_row_data row fields).2)
        ∈ (process_batch_import read fields rows override).1.failed)
    ∧ (∀ p ∈ (validateAll fields 0 rows).2, p.1 ≠ idx)
    ∧ (∀ d ∈ ((process_batch_import read fields rows override).2.1
          ++ (process_batch_import read fields rows override).2.2.1).map Prod.snd,
        d ∈ (validateAll fields 0 rows).2.map Prod.snd)
    ∧ (∀ f : String, ∀ q : ℚ, f ∈ fields → f ≠ "date" →
        pyFloat (rowGetD row f (.str "")) = some q → q < 0 →
        (validate_row_data row fields).2 ≠ []) := by
  have hne : (validate_row_data row fields).2.isEmpty = false := by
    cases hh : (validate_row_data row fields).2 with
    | nil => exact absurd hh herr
    | cons a l => simp [hh]
  refine ⟨?_, ?_, ?_, ?_⟩
  · rw [process_failed_eq, validateAll_spec]
    refine List.mem_filterMap.mpr ⟨(idx, row), ?_, ?_⟩
    · exact List.mem_enum_iff_getElem?.mpr hrow
    · simp [hne]
  · intro p hp
    rw [validateAll_spec] at hp
    obtain ⟨a, ha, hfa⟩ := List.mem_filterMap.mp hp
    obtain ⟨i, r0⟩ := a
    by_cases hae : (validate_row_data r0 fields).2.isEmpty = true
    · rw [if_pos hae] at hfa
      cases Option.some.inj hfa
      intro heq
      have hi : i = idx := heq
      have ha' : rows[i]? = some r0 := List.mem_enum_iff_getElem?.mp ha
      rw [hi, hrow] at ha'
      have hr0 : r0 = row := (Option.some.inj ha').symm
      rw [hr0, hne] at hae
      cases hae
    · rw [if_neg hae] at hfa
      cases hfa
  · exact process_buckets_mem read fields rows override
  · intro f q hf hfd hq hneg
    exact validate_row_data_neg_ne_nil row fields f q hf hfd hq hneg

/-- C10: with one validation-rejected row preceding a conflicting row, the
conflict bucket holds the conflicting row (as position 0 of the validated
list, i.e. original row 1), yet the reported conflicts list is empty — the
conflict entry is silently dropped because the reporting loop compares a
validated-list position against original row indices. -/
theorem conflict_report_dropped_after_rejected_row :
    (validate_row_data [("date", RawVal.str "2024-01"), ("tainan", RawVal.num 5)]
        ["date", "tainan"]).2 = []
    ∧ (process_batch_import (fun _ => .ok ["2024-01"]) ["date", "tainan"]
        [[("date", RawVal.str "bad")],
          [("date", RawVal.str "2024-01"), ("tainan", RawVal.num 5)]] false).2.2.2 = [0]
    ∧ (process_batch_import (fun _ => .ok ["2024-01"]) ["date", "tainan"]
        [[("date", RawVal.str "bad")],
          [("date", RawVal.str "2024-01"), ("tainan", RawVal.num 5)]] false).1.conflicts = []
    ∧ (process_batch_import (fun _ => .ok ["2024-01"]) ["date", "tainan"]
        [[("date", RawVal.str "bad")],
          [("date", RawVal.str "2024-01"), ("tainan", RawVal.num 5)]] false).1.failed
        = [(0, "日期格式無效")] := by
  refine ⟨by decide, by decide, by decide, by decide⟩

/-! ### WasteManagement/views.py batch_import -/

/-- The Django field kinds the import coercion loop distinguishes
(`FloatField`, `IntegerField`, anything else). -/
inductive FieldKind where
  | floatField
  | intField
  | charField
deriving DecidableEq

/-- A coerced cell value of a record under construction. -/
inductive FieldVal where
  | fval (q : ℚ)
  | ival (z : ℤ)
  | sval (s : String)
  | nullval
deriving DecidableEq

/-- A record as assembled by `batch_import` before writing. -/
structure Record where
  date : String
  vals : List (String × FieldVal)
deriving DecidableEq

/-- `str(value)` on a raw cell.  The rendering of numbers is only used by the
string-field branch, which no claim exercises; rationals are rendered with
Lean's `toString`. -/
def pyStr (v : RawVal) : String :=
  match v with
  | .str s => s
  | .num q => toString q
  | .null => "None"

/-- One iteration of the field-coercion loop of `batch_import`
(views.py 539-558): blank cells become `None`; float fields parse via
`float(str(value).strip())`, integer fields via `int(str(value).strip())`,
other fields keep the stripped string; a parse failure yields the
field-named error (the Python exception text appended to the message in the
source is omitted). -/
def coerceField (k : FieldKind) (f : String) (v : RawVal) : Except String FieldVal :=
  if v == .str "" || v == .null then .ok .nullval
  else
    match k with
    | .floatField =>
        match v with
        | .num q => .ok (.fval q)
        | .str s =>
            if strTrim s = "" then .ok .nullval
            else
              match parseFloat s with
              | some q => .ok (.fval q)
              | none => .error ("欄位 " ++ f ++ " 資料格式錯誤")
        | .null => .ok .nullval
    | .intField =>
        match v with
        | .num q =>
            if q.den = 1 then .ok (.ival q.num)
            else .error ("欄位 " ++ f ++ " 資料格式錯誤")
        | .str s =>
            if strTrim s = "" then .ok .nullval
            else
              match parseInt s with
              | some z => .ok (.ival z)
              | none => .error ("欄位 " ++ f ++ " 資料格式錯誤")
        | .null => .ok .nullval
    | .charField => .ok (.sval (strTrim (pyStr v)))

/-- The field-coercion loop over the model's fields, skipping `date` and the
auto-calculated `total`, stopping at the first failing field. -/
def parseRowFields (fields : List (String × FieldKind))
    (row : List (String × RawVal)) : Except String (List (String × FieldVal)) :=
  match fields with
  | [] => .ok []
  | (f, k) :: rest =>
      if f == "date" || f == "total" then parseRowFields rest row
      else
        match coerceField k f (rowGetD row f (.str "")) with
        | .error m => .error m
        | .ok v =>
            match parseRowFields rest row with
            | .error m => .error m
            | .ok t => .ok ((f, v) :: t)

/-- The fate of one row in the classification loop of `batch_import`
(views.py 503-574). -/
inductive RowOutcome where
  | rejected (reason : String)
  | conflictR
  | createR (r : Record)
  | updateR (r : Record)
deriving DecidableEq

/-- The string payload of a raw cell (the classification loop only reaches
this once date validation has certified the cell is a string). -/
def rawStr (v : RawVal) : String :=
  match v with
  | .str s => s
  | _ => ""

/-- The body of the classification loop of `batch_import` (views.py 503-574):
date validation failure rejects the row; an existing date without override is
a conflict; a field-coercion failure rejects the row; otherwise an existing
date with override updates and a fresh date creates. -/
def classifyRow (fields : List (String × FieldKind)) (existing : List String)
    (override : Bool) (row : List (String × RawVal)) : RowOutcome :=
  let dv := rowGetD row "date" .null
  if (validateDateVal dv).1 then
    let ds := rawStr dv
    let hasConflict := existing.contains ds
    if hasConflict && !override then .conflictR
    else
      match parseRowFields fields row with
      | .error m => .rejected m
      | .ok vals =>
          if hasConflict && override then .updateR ⟨ds, vals⟩
          else .createR ⟨ds, vals⟩
  else .rejected (validateDateVal dv).2

/-- The classification loop of `batch_import`, enumerating from `idx`:
per source, the create bucket collects bare records, the update bucket
index-record pairs, and the conflict and failed entries record row indices. -/
def viewsClassifyAux (fields : List (String × FieldKind)) (existing : List String)
    (override : Bool) (idx : ℕ) :
    List (List (String × RawVal)) →
      List Record × List (ℕ × Record) × List ℕ × List ℕ
  | [] => ([], [], [], [])
  | row :: rest =>
      let r := viewsClassifyAux fields existing override (idx + 1) rest
      match classifyRow fields existing override row with
      | .rejected _ => (r.1, r.2.1, r.2.2.1, idx :: r.2.2.2)
      | .conflictR => (r.1, r.2.1, idx :: r.2.2.1, r.2.2.2)
      | .createR rcd => (rcd :: r.1, r.2.1, r.2.2.1, r.2.2.2)
      | .updateR rcd => (r.1, (idx, rcd) :: r.2.1, r.2.2.1, r.2.2.2)

/-- The classification loop of `batch_import` from index 0:
(create bucket, update bucket, conflict indices, failed indices). -/
def viewsClassify (fields : List (String × FieldKind)) (existing : List String)
    (override : Bool) (rows : List (List (String × RawVal))) :
    List Record × List (ℕ × Record) × List ℕ × List ℕ :=
  viewsClassifyAux fields existing override 0 rows

/-- Closed form of the classification loop: each bucket is the filterMap of
the (enumerated) input selecting its outcome. -/
theorem viewsClassifyAux_spec (fields : List (String × FieldKind))
    (existing : List String) (override : Bool) (idx : ℕ)
    (rows : List (List (String × RawVal))) :
    viewsClassifyAux fields existing override idx rows =
      (rows.filterMap (fun row =>
          match classifyRow fields existing override row with
          | .createR r => some r
          | _ => none),
        (rows.enumFrom idx).filterMap (fun p =>
          match classifyRow fields existing override p.2 with
          | .updateR r => some (p.1, r)
          | _ => none),
        (rows.enumFrom idx).filterMap (fun p =>
          match classifyRow fields existing override p.2 with
          | .conflictR => some p.1
          | _ => none),
        (rows.enumFrom idx).filterMap (fun p =>
          match classifyRow fields existing override p.2 with
          | .rejected _ => some p.1
          | _ => none)) := by
  induction rows generalizing idx with
  | nil => simp [viewsClassifyAux]
  | cons row rest ih =>
      cases hc : classifyRow fields existing override row <;>
        simp [viewsClassifyAux, List.enumFrom, ih, hc, List.filterMap_cons]

/-- Membership in the conflict-index bucket characterized by row outcome. -/
theorem viewsClassify_conflict_iff (fields : List (String × FieldKind))
    (existing : List String) (override : Bool)
    (rows : List (List (String × RawVal))) (i : ℕ) :
    i ∈ (viewsClassify fields existing override rows).2.2.1 ↔
      ∃ row, rows[i]? = some row
        ∧ classifyRow fields existing override row = .conflictR := by
  rw [viewsClassify, viewsClassifyAux_spec]
  constructor
  · intro h
    obtain ⟨⟨j, r⟩, hmem, hf⟩ := List.mem_filterMap.mp h
    cases hcr : classifyRow fields existing override r <;> rw [hcr] at hf <;>
      simp at hf
    exact ⟨r, by rw [← hf]; exact List.mem_enum_iff_getElem?.mp hmem, hcr⟩
  · rintro ⟨row, hget, hcr⟩
    exact List.mem_filterMap.mpr
      ⟨(i, row), List.mem_enum_iff_getElem?.mpr hget, by rw [hcr]⟩

/-- Membership in the failed-index bucket characterized by row outcome. -/
theorem viewsClassify_rejected_iff (fields : List (String × FieldKind))
    (existing : List String) (override : Bool)
    (rows : List (List (String × RawVal))) (i : ℕ) :
    i ∈ (viewsClassify fields existing override rows).2.2.2 ↔
      ∃ row m, rows[i]? = some row
        ∧ classifyRow fields existing override row = .rejected m := by
  rw [viewsClassify, viewsClassifyAux_spec]
  constructor
  · intro h
    obtain ⟨⟨j, r⟩, hmem, hf⟩ := List.mem_filterMap.mp h
    cases hcr : classifyRow fields existing override r <;> rw [hcr] at hf <;>
      simp at hf
    exact ⟨r, _, by rw [← hf]; exact List.mem_enum_iff_getElem?.mp hmem, hcr⟩
  · rintro ⟨row, m, hget, hcr⟩
    exact List.mem_filterMap.mpr
      ⟨(i, row), List.mem_enum_iff_getElem?.mpr hget, by rw [hcr]⟩

/-- Membership among the update-bucket indices characterized by row
outcome. -/
theorem viewsClassify_update_iff (fields : List (String × FieldKind))
    (existing : List String) (override : Bool)
    (rows : List (List (String × RawVal))) (i : ℕ) :
    i ∈ (viewsClassify fields existing override rows).2.1.map Prod.fst ↔
      ∃ row r, rows[i]? = some row
        ∧ classifyRow fields existing override row = .updateR r := by
  rw [viewsClassify, viewsClassifyAux_spec]
  constructor
  · intro h
    obtain ⟨⟨j, rc⟩, hjr, hj⟩ := List.mem_map.mp h
    obtain ⟨⟨j', r⟩, hmem, hf⟩ := List.mem_filterMap.mp hjr
    cases hcr : classifyRow fields existing override r <;> rw [hcr] at hf <;>
      simp at hf
    refine ⟨r, _, ?_, hcr⟩
    have hj' : j' = i := by
      have : j' = j := hf.1
      rw [this]
      exact hj
    rw [← hj']
    exact List.mem_enum_iff_getElem?.mp hmem
  · rintro ⟨row, r, hget, hcr⟩
    refine List.mem_map.mpr ⟨(i, r), ?_, rfl⟩
    exact List.mem_filterMap.mpr
      ⟨(i, row), List.mem_enum_iff_getElem?.mpr hget, by rw [hcr]⟩

/-- C2: the four buckets of the `batch_import` classification loop partition
the submitted rows — their sizes sum to the batch size, each bucket is
exactly the rows with the corresponding outcome, no index lies in two
buckets — and in `process_batch_import` the rejected, create, update and
conflict buckets likewise exhaust the batch. -/
theorem batch_import_partition (fields : List (String × FieldKind))
    (existing : List String) (override : Bool)
    (rows : List (List (String × RawVal)))
    (read : List String → Except String (List String))
    (pfields : List String) (prows : List (List (String × RawVal)))
    (poverride : Bool) :
    ((viewsClassify fields existing override rows).1.length
        + (viewsClassify fields existing override rows).2.1.length
        + (viewsClassify fields existing override rows).2.2.1.length
        + (viewsClassify fields existing override rows).2.2.2.length
        = rows.length)
    ∧ ((viewsClassify fields existing override rows).1
        = rows.filterMap (fun row =>
            match classifyRow fields existing override row with
            | .createR r => some r
            | _ => none))
    ∧ ((viewsClassify fields existing override rows).2.1
        = rows.enum.filterMap (fun p =>
            match classifyRow fields existing override p.2 with
            | .updateR r => some (p.1, r)
            | _ => none))
    ∧ ((viewsClassify fields existing override rows).2.2.1
        = rows.enum.filterMap (fun p =>
            match classifyRow fields existing override p.2 with
            | .conflictR => some p.1
            | _ => none))
    ∧ ((viewsClassify fields existing override rows).2.2.2
        = rows.enum.filterMap (fun p =>
            match classifyRow fields existing override p.2 with
            | .rejected _ => some p.1
            | _ => none))
    ∧ ((viewsClassify fields existing override rows).2.1.map Prod.fst).Disjoint
        (viewsClassify fields existing override rows).2.2.1
    ∧ ((viewsClassify fields existing override rows).2.1.map Prod.fst).Disjoint
        (viewsClassify fields existing override rows).2.2.2
    ∧ ((viewsClassify fields existing override rows).2.2.1).Disjoint
        (viewsClassify fields existing override rows).2.2.2
    ∧ ((process_batch_import read pfields prows poverride).1.failed.length
        + (process_batch_import read pfields prows poverride).2.1.length
        + (process_batch_import read pfields prows poverride).2.2.1.length
        + (process_batch_import read pfields prows poverride).2.2.2.length
        = prows.length) := by
  have hspec := viewsClassifyAux_spec fields existing override 0 rows
  refine ⟨?_, ?_, ?_, ?_, ?_, ?_, ?_, ?_, ?_⟩
  · -- length sum by induction over the classification loop
    clear hspec
    suffices h : ∀ idx rows0,
        (viewsClassifyAux fields existing override idx rows0).1.length
          + (viewsClassifyAux fields existing override idx rows0).2.1.length
          + (viewsClassifyAux fields existing override idx rows0).2.2.1.length
          + (viewsClassifyAux fields existing override idx rows0).2.2.2.length
          = rows0.length by
      exact h 0 rows
    intro idx rows0
    induction rows0 generalizing idx with
    | nil => simp [viewsClassifyAux]
    | cons row rest ih =>
        cases hc : classifyRow fields existing override row <;>
          (simp [viewsClassifyAux, hc]
           have h := ih (idx + 1)
           omega)
  · rw [viewsClassify, hspec]
  · rw [viewsClassify, hspec]; rfl
  · rw [viewsClassify, hspec]; rfl
  · rw [viewsClassify, hspec]; rfl
  · intro i hiu hik
    obtain ⟨row, r, hget, hcr⟩ :=
      (viewsClassify_update_iff fields existing override rows i).mp hiu
    obtain ⟨row', hget', hcr'⟩ :=
      (viewsClassify_conflict_iff fields existing override rows i).mp hik
    rw [hget] at hget'
    cases Option.some.inj hget'
    rw [hcr] at hcr'
    cases hcr'
  · intro i hiu hif
    obtain ⟨row, r, hget, hcr⟩ :=
      (viewsClassify_update_iff fields existing override rows i).mp hiu
    obtain ⟨row', m, hget', hcr'⟩ :=
      (viewsClassify_rejected_iff fields existing override rows i).mp hif
    rw [hget] at hget'
    cases Option.some.inj hget'
    rw [hcr] at hcr'
    cases hcr'
  · intro i hik hif
    obtain ⟨row, hget, hcr⟩ :=
      (viewsClassify_conflict_iff fields existing override rows i).mp hik
    obtain ⟨row', m, hget', hcr'⟩ :=
      (viewsClassify_rejected_iff fields existing override rows i).mp hif
    rw [hget] at hget'
    cases Option.some.inj hget'
    rw [hcr] at hcr'
    cases hcr'
  · rw [process_failed_eq]
    unfold process_batch_import
    by_cases hv : (validateAll pfields 0 prows).2.isEmpty = true
    · have hlen := validateAll_length pfields 0 prows
      have hz : (validateAll pfields 0 prows).2.length = 0 := by
        rw [List.isEmpty_iff] at hv
        simp [hv]
      simp [hv]
      omega
    · simp only [hv, Bool.false_eq_true, if_false]
      have hlen := validateAll_length pfields 0 prows
      have hcat := categorizeAux_length
        (check_conflicts read ((validateAll pfields 0 prows).2.map (fun p => p.2.date)))
        poverride 0 ((validateAll pfields 0 prows).2.map Prod.snd)
      rw [categorize_rows]
      simp only [List.length_map] at hcat
      omega

/-- The JSON response of an import view: either a single top-level error or
a success flag with the structured results. -/
inductive Resp (ρ : Type) where
  | topError (msg : String)
  | result (ok : Bool) (res : ρ)
deriving DecidableEq

/-- The results object of `batch_import` (views.py 484-489), with the failed
and conflict entries abstracted to their row indices. -/
structure ViewResults where
  total : ℕ
  success : ℕ
  failedIdx : List ℕ
  conflictIdx : List ℕ
deriving DecidableEq

/-- `batch_import` (WasteManagement/views.py 453-686) over a storage state:
the permission gate, the one-query date preload, the classification loop, the
bulk create (append) and the bulk update (delete every record whose date is
among the update dates, then insert the replacements) inside one transaction.
Writes are modelled as succeeding; `success` counts both buckets.  The preload
keeps only truthy string dates, as non-string values can never equal a stored
date.  -/
def viewsBatchImport (fields : List (String × FieldKind))
    (authorized override : Bool) (rows : List (List (String × RawVal)))
    (state : List Record) : Resp ViewResults × List Record :=
  if rows.isEmpty then (.topError "缺少必要參數", state)
  else if override && !authorized then (.topError "您沒有覆寫資料的權限", state)
  else
    let all_dates := rows.filterMap (fun r =>
      match rowGetD r "date" .null with
      | .str s => if s = "" then none else some s
      | _ => none)
    let existing := (state.map Record.date).filter (fun d => all_dates.contains d)
    let cl := viewsClassify fields existing override rows
    let st1 := state ++ cl.1
    let deleteDates := cl.2.1.map (fun p => p.2.date)
    let st2 :=
      if cl.2.1.isEmpty then st1
      else (st1.filter (fun r => !deleteDates.contains r.date))
        ++ cl.2.1.map Prod.snd
    let res : ViewResults :=
      ⟨rows.length, cl.1.length + cl.2.1.length, cl.2.2.2, cl.2.2.1⟩
    if !cl.2.2.1.isEmpty && !override then (.result false res, st2)
    else (.result true res, st2)

/-! ### WasteManagement/views.py batch_import_departments -/

/-- A persisted department waste record (a `WasteRecord` for the fixed target
waste type). -/
structure DeptRec where
  date : String
  dept : ℕ
  amount : ℚ
deriving DecidableEq

/-- A pending operation collected from one department column
(views.py 1555-1561). -/
structure DeptOp where
  date : String
  dept : ℕ
  deptName : String
  amount : ℚ
  already : Bool
deriving DecidableEq

/-- The department-column loop of `batch_import_departments`
(views.py 1509-1561): blank cells and the date key are skipped; an unknown
department, a malformed amount or a negative amount each append a failed
entry for this row and move on to the NEXT COLUMN of the same row; a
conflicting column is collected into the row's conflict list; a clean column
becomes a pending operation flagged with whether the record already exists. -/
def deptRowStep (mapping : List (String × ℕ))
    (conflictMap : List ((String × ℕ) × ℚ)) (override : Bool) (idx : ℕ)
    (date : String) :
    List (String × String) →
      List (ℕ × String) × List (String × ℚ × ℚ) × List DeptOp
  | [] => ([], [], [])
  | (nm, amtStr) :: rest =>
      let r := deptRowStep mapping conflictMap override idx date rest
      if nm == "date" || strTrim amtStr == "" then r
      else
        match mapping.find? (fun p => p.1 == nm) with
        | none => ((idx, "未知部門: " ++ nm) :: r.1, r.2)
        | some pd =>
            match parseFloat amtStr with
            | none => ((idx, "部門 " ++ nm ++ " 數量格式無效") :: r.1, r.2)
            | some q =>
                if q < 0 then
                  ((idx, "部門 " ++ nm ++ " 數量不能為負數") :: r.1, r.2)
                else
                  match (conflictMap.find?
                      (fun p => p.1.1 == date && p.1.2 == pd.2)).map Prod.snd with
                  | some ex =>
                      if override then
                        (r.1, r.2.1, ⟨date, pd.2, nm, q, true⟩ :: r.2.2)
                      else (r.1, (nm, ex, q) :: r.2.1, r.2.2)
                  | none => (r.1, r.2.1, ⟨date, pd.2, nm, q, false⟩ :: r.2.2)

/-- `row.get("date")` on a department row. -/
def deptRowDate (row : List (String × String)) : Option String :=
  (row.find? (fun p => p.1 == "date")).map Prod.snd

/-- Date validation of one department row: `row.get("date")` is `None` when
the key is absent, which the isinstance guard sends to the empty-date
message. -/
def deptRowDv (row : List (String × String)) : Bool × String :=
  match deptRowDate row with
  | some s => validate_yyyy_mm_format s
  | none => (false, EMPTY_DATE_MSG)

/-- One full iteration of the row loop of `batch_import_departments`
(views.py 1492-1585): date validation, the column loop, then the row-level
decision — a row with any conflicting column is reported once in the
conflicts list and contributes NOTHING to the create or update buckets; a
conflict-free row splits its pending operations into updates (record exists)
and creates (record fresh). -/
def deptHandleRow (mapping : List (String × ℕ))
    (conflictMap : List ((String × ℕ) × ℚ)) (override : Bool) (idx : ℕ)
    (row : List (String × String)) :
    List (ℕ × String) × List (ℕ × String × List (String × ℚ × ℚ))
      × List DeptRec × List DeptOp :=
  if (deptRowDv row).1 then
    let date := (deptRowDate row).getD ""
    let st := deptRowStep mapping conflictMap override idx date row
    if st.2.1.isEmpty then
      (st.1, [],
        st.2.2.filterMap (fun op =>
          if op.already then none else some ⟨op.date, op.dept, op.amount⟩),
        st.2.2.filter (fun op => op.already))
    else (st.1, [(idx, date, st.2.1)], [], [])
  else ([(idx, (deptRowDv row).2)], [], [], [])

/-- The row loop of `batch_import_departments` over the whole batch,
concatenating each row's contributions in submission order. -/
def deptClassifyAux (mapping : List (String × ℕ))
    (conflictMap : List ((String × ℕ) × ℚ)) (override : Bool) (idx : ℕ) :
    List (List (String × String)) →
      List (ℕ × String) × List (ℕ × String × List (String × ℚ × ℚ))
        × List DeptRec × List DeptOp
  | [] => ([], [], [], [])
  | row :: rest =>
      let h := deptHandleRow mapping conflictMap override idx row
      let r := deptClassifyAux mapping conflictMap override (idx + 1) rest
      (h.1 ++ r.1, h.2.1 ++ r.2.1, h.2.2.1 ++ r.2.2.1, h.2.2.2 ++ r.2.2.2)

/-- The date preload list of `batch_import_departments` (views.py 1472-1473):
the truthy date cells of the batch. -/
def deptAllDates (rows : List (List (String × String))) : List String :=
  rows.filterMap (fun r =>
    match (r.find? (fun p => p.1 == "date")).map Prod.snd with
    | some s => if s = "" then none else some s
    | none => none)

/-- The conflict map preload of `batch_import_departments`
(views.py 1475-1484): existing records for the batch's dates, keyed by
(date, department), valued by the stored amount. -/
def deptConflictMap (state : List DeptRec)
    (rows : List (List (String × String))) : List ((String × ℕ) × ℚ) :=
  state.filterMap (fun rcd =>
    if (deptAllDates rows).contains rcd.date then
      some ((rcd.date, rcd.dept), rcd.amount)
    else none)

/-- The results object of `batch_import_departments`. -/
structure DeptResults where
  total : ℕ
  success : ℕ
  failed : List (ℕ × String)
  conflicts : List (ℕ × String × List (String × ℚ × ℚ))
deriving DecidableEq

/-- `batch_import_departments` (views.py 1416-1678) over a storage state:
permission gate, conflict-map preload, row loop, bulk create (append) and
bulk update (delete records matching any (date, department) of the update
operations, then insert the replacements) in one transaction.  Writes are
modelled as succeeding. -/
def deptBatchImport (mapping : List (String × ℕ)) (authorized override : Bool)
    (rows : List (List (String × String))) (state : List DeptRec) :
    Resp DeptResults × List DeptRec :=
  if rows.isEmpty then (.topError "未提供資料", state)
  else if override && !authorized then (.topError "您沒有覆寫資料的權限", state)
  else
    let cm := deptConflictMap state rows
    let cl := deptClassifyAux mapping cm override 0 rows
    let st1 := state ++ cl.2.2.1
    let st2 :=
      if cl.2.2.2.isEmpty then st1
      else (st1.filter (fun r =>
          !(cl.2.2.2.any (fun op => op.date == r.date && op.dept == r.dept))))
        ++ cl.2.2.2.map (fun op => (⟨op.date, op.dept, op.amount⟩ : DeptRec))
    let res : DeptResults :=
      ⟨rows.length, cl.2.2.1.length + cl.2.2.2.length, cl.1, cl.2.1⟩
    if !cl.2.1.isEmpty && !override then (.result false res, st2)
    else (.result true res, st2)

/-- A department row with at least one conflicting column (override off)
contributes a single conflict entry and nothing else to the buckets. -/
theorem deptHandleRow_conflict_shape (mapping : List (String × ℕ))
    (conflictMap : List ((String × ℕ) × ℚ)) (idx : ℕ)
    (row : List (String × String))
    (hconf : (deptHandleRow mapping conflictMap false idx row).2.1 ≠ []) :
    ∃ fails date confls, confls ≠ []
      ∧ deptHandleRow mapping conflictMap false idx row
          = (fails, [(idx, date, confls)], [], []) := by
  by_cases hdv : (deptRowDv row).1 = true
  · by_cases hst : (deptRowStep mapping conflictMap false idx
        ((deptRowDate row).getD "") row).2.1.isEmpty = true
    · exfalso
      apply hconf
      simp [deptHandleRow, hdv, hst]
    · refine ⟨(deptRowStep mapping conflictMap false idx
          ((deptRowDate row).getD "") row).1,
        (deptRowDate row).getD "",
        (deptRowStep mapping conflictMap false idx
          ((deptRowDate row).getD "") row).2.1, ?_, ?_⟩
      · intro h
        rw [h] at hst
        simp at hst
      · simp [deptHandleRow, hdv, hst]
  · exfalso
    apply hconf
    simp only [Bool.not_eq_true] at hdv
    simp [deptHandleRow, hdv]

/-- C3: in the department import with override off, a row with at least one
conflicting department column contributes nothing to the create or update
buckets — the whole row becomes one conflict entry — and a single-row import
of such a row leaves storage unchanged and reports failure. -/
theorem dept_conflict_blocks_whole_row (mapping : List (String × ℕ))
    (conflictMap : List ((String × ℕ) × ℚ)) (idx : ℕ)
    (row : List (String × String)) (state : List DeptRec)
    (hconf : (deptHandleRow mapping conflictMap false idx row).2.1 ≠ [])
    (hconf0 : (deptHandleRow mapping (deptConflictMap state [row])
        false 0 row).2.1 ≠ []) :
    ((deptHandleRow mapping conflictMap false idx row).2.2.1 = []
      ∧ (deptHandleRow mapping conflictMap false idx row).2.2.2 = []
      ∧ ∃ date confls, confls ≠ []
          ∧ (deptHandleRow mapping conflictMap false idx row).2.1
              = [(idx, date, confls)])
    ∧ ∃ res, deptBatchImport mapping true false [row] state
        = (Resp.result false res, state) := by
  obtain ⟨fails, date, confls, hcne, hshape⟩ :=
    deptHandleRow_conflict_shape mapping conflictMap idx row hconf
  obtain ⟨fails0, date0, confls0, hcne0, hshape0⟩ :=
    deptHandleRow_conflict_shape mapping (deptConflictMap state [row]) 0 row hconf0
  constructor
  · refine ⟨by rw [hshape], by rw [hshape], date, confls, hcne, by rw [hshape]⟩
  · refine ⟨⟨1, 0, fails0, [(0, date0, confls0)]⟩, ?_⟩
    unfold deptBatchImport
    simp [deptClassifyAux, hshape0, hcne0]

/-- C5 counterexample: in the department import a row containing a negative
amount is NOT wholly rejected — the negative column is reported as a failure
while the row's other valid column still reaches the create bucket. -/
theorem dept_negative_column_partial_import :
    deptHandleRow [("A", 1), ("B", 2)] [] false 0
        [("date", "2024-01"), ("A", "-1"), ("B", "5")]
      = ([(0, "部門 A 數量不能為負數")], [],
          [⟨"2024-01", 2, 5⟩], []) := by
  rfl

/-- C7: when override is requested but the caller lacks the override
capability, both the management and the department batch imports short-circuit
with the single top-level permission error, before any classification or
write: storage is returned unchanged and no per-row conflict is reported. -/
theorem override_refusal_short_circuits (fields : List (String × FieldKind))
    (rows : List (List (String × RawVal))) (state : List Record)
    (mapping : List (String × ℕ)) (drows : List (List (String × String)))
    (dstate : List DeptRec) (hrows : rows ≠ []) (hdrows : drows ≠ []) :
    viewsBatchImport fields false true rows state
        = (.topError "您沒有覆寫資料的權限", state)
    ∧ deptBatchImport mapping false true drows dstate
        = (.topError "您沒有覆寫資料的權限", dstate) := by
  have h1 : rows.isEmpty = false := by
    cases rows with
    | nil => exact absurd rfl hrows
    | cons a l => rfl
  have h2 : drows.isEmpty = false := by
    cases drows with
    | nil => exact absurd rfl hdrows
    | cons a l => rfl
  constructor
  · unfold viewsBatchImport
    simp [h1]
  · unfold deptBatchImport
    simp [h2]

/-- C6: after a prior import stored value V1 under date K, re-importing K
with a new payload and override requested and authorized leaves exactly one
stored record for K, holding the new payload: the update path deletes every
record with date K and inserts the replacement. -/
theorem override_update_replaces_exactly_one (fields : List (String × FieldKind))
    (state : List Record) (K : String) (row : List (String × RawVal))
    (v1 flds : List (String × FieldVal))
    (hprior : state.filter (fun r => r.date == K) = [⟨K, v1⟩])
    (hdate : rowGetD row "date" .null = .str K)
    (hvalid : (validate_yyyy_mm_format K).1 = true)
    (hparse : parseRowFields fields row = .ok flds) :
    ((viewsBatchImport fields true true [row] state).2.filter
        (fun r => r.date == K)) = [⟨K, flds⟩] := by
  have hK : K ≠ "" := by
    intro h
    rw [h] at hvalid
    exact absurd hvalid (by decide)
  have hKmem : (⟨K, v1⟩ : Record) ∈ state := by
    have hm : (⟨K, v1⟩ : Record) ∈ state.filter (fun r => r.date == K) := by
      rw [hprior]
      exact List.mem_singleton.mpr rfl
    exact (List.mem_filter.mp hm).1
  have hadK : ([row].filterMap (fun r =>
      match rowGetD r "date" .null with
      | .str s => if s = "" then none else some s
      | _ => none)) = [K] := by
    simp [List.filterMap_cons, hdate, hK]
  have hexM : K ∈ (state.map Record.date).filter (fun d => decide (d = K)) := by
    apply List.mem_filter.mpr
    exact ⟨List.mem_map.mpr ⟨⟨K, v1⟩, hKmem, rfl⟩, by simp⟩
  have hrowcl : classifyRow fields
      ((state.map Record.date).filter (fun d => decide (d = K)))
      true row = .updateR ⟨K, flds⟩ := by
    unfold classifyRow
    rw [hdate]
    simp [validateDateVal, hvalid, rawStr, hexM, hparse]
  unfold viewsBatchImport
  rw [hadK]
  simp [viewsClassify, viewsClassifyAux, hrowcl, List.filter_append]

/-! ### Retry loops around the bulk write paths -/

/-- The outcome of one write attempt: success, the "database is locked"
`OperationalError`, another `OperationalError`, or any other exception. -/
inductive WriteOutcome where
  | ok
  | locked
  | opErr (msg : String)
  | exc (msg : String)
deriving DecidableEq

/-- What one row's retry loop did: whether the write succeeded, the recorded
failure reason if any, how many write attempts were made, and the sleep
durations (in seconds) in order. -/
structure RetryTrace where
  succeeded : Bool
  failure : Option String
  attempts : ℕ
  sleeps : List ℚ
deriving DecidableEq

/-- The per-row retry loop of the transportation `batch_import`
(WasteTransportation/views.py 1227-1273): at most 3 attempts; only the
locked error is retried, sleeping `0.1 * retry_count` seconds after the
increment (0.1 then 0.2 — linear, not exponential); a third locked attempt
records the lock-specific reason; any other error records its message and
stops immediately. -/
def transportRetryGo (script : ℕ → WriteOutcome) (attempt retry_count : ℕ)
    (sleeps : List ℚ) : RetryTrace :=
  if retry_count < 3 then
    match script attempt with
    | .ok => ⟨true, none, attempt + 1, sleeps⟩
    | .locked =>
        if retry_count + 1 < 3 then
          transportRetryGo script (attempt + 1) (retry_count + 1)
            (sleeps ++ [(1 / 10 : ℚ) * (retry_count + 1)])
        else ⟨false, some "資料庫鎖定，請稍後重試", attempt + 1, sleeps⟩
    | .opErr m => ⟨false, some m, attempt + 1, sleeps⟩
    | .exc m => ⟨false, some m, attempt + 1, sleeps⟩
  else ⟨false, none, attempt, sleeps⟩
termination_by 3 - retry_count

/-- The transportation retry loop from its initial state. -/
def transportRetry (script : ℕ → WriteOutcome) : RetryTrace :=
  transportRetryGo script 0 0 []

/-- The per-row retry loop of `process_batch_update`
(WasteManagement/views.py 713-746): at most 3 attempts; a locked error with
`retry_count < max_retries - 1` retries after sleeping
`0.2 * 2 ** retry_count` seconds with the already-incremented counter (0.4
then 0.8 — the first sleep is not 0.2); a locked error past the bound, and
any other `OperationalError`, record a reason prefixed 資料庫鎖定錯誤; any
other exception records 更新資料失敗 and stops. -/
def updateRetryGo (script : ℕ → WriteOutcome) (attempt retry_count : ℕ)
    (sleeps : List ℚ) : RetryTrace :=
  if retry_count < 3 then
    match script attempt with
    | .ok => ⟨true, none, attempt + 1, sleeps⟩
    | .locked =>
        if retry_count < 2 then
          updateRetryGo script (attempt + 1) (retry_count + 1)
            (sleeps ++ [(1 / 5 : ℚ) * 2 ^ (retry_count + 1)])
        else ⟨false, some "資料庫鎖定錯誤: database is locked", attempt + 1, sleeps⟩
    | .opErr m => ⟨false, some ("資料庫鎖定錯誤: " ++ m), attempt + 1, sleeps⟩
    | .exc m => ⟨false, some ("更新資料失敗: " ++ m), attempt + 1, sleeps⟩
  else ⟨false, none, attempt, sleeps⟩
termination_by 3 - retry_count

/-- The `retry_on_lock` decorator's bound (WasteManagement/views.py 145). -/
def retry_on_lock_max_retries : ℕ := 999999

/-- The `retry_on_lock` decorator's constant delay in seconds
(WasteManagement/views.py 145). -/
def retry_on_lock_delay : ℚ := 1 / 2

/-- The transportation retry loop makes at most `3 - retry_count` further
attempts. -/
theorem transportRetryGo_attempts_le (script : ℕ → WriteOutcome) :
    ∀ n rc a s, 3 - rc = n →
      (transportRetryGo script a rc s).attempts ≤ a + (3 - rc) := by
  intro n
  induction n with
  | zero =>
      intro rc a s h
      unfold transportRetryGo
      have h3 : ¬rc < 3 := by omega
      simp [h3]
  | succ n ih =>
      intro rc a s h
      have h3 : rc < 3 := by omega
      unfold transportRetryGo
      simp only [h3, if_true]
      cases script a with
      | ok => simp; omega
      | locked =>
          by_cases h2 : rc + 1 < 3
          · simp only [h2, if_true]
            have := ih (rc + 1) (a + 1)
              (s ++ [(1 / 10 : ℚ) * (rc + 1)]) (by omega)
            omega
          · simp [h2]; omega
      | opErr m => simp; omega
      | exc m => simp; omega

/-- The management update retry loop makes at most `3 - retry_count` further
attempts. -/
theorem updateRetryGo_attempts_le (script : ℕ → WriteOutcome) :
    ∀ n rc a s, 3 - rc = n →
      (updateRetryGo script a rc s).attempts ≤ a + (3 - rc) := by
  intro n
  induction n with
  | zero =>
      intro rc a s h
      unfold updateRetryGo
      have h3 : ¬rc < 3 := by omega
      simp [h3]
  | succ n ih =>
      intro rc a s h
      have h3 : rc < 3 := by omega
      unfold updateRetryGo
      simp only [h3, if_true]
      cases script a with
      | ok => simp; omega
      | locked =>
          by_cases h2 : rc < 2
          · simp only [h2, if_true]
            have := ih (rc + 1) (a + 1)
              (s ++ [(1 / 5 : ℚ) * 2 ^ (rc + 1)]) (by omega)
            omega
          · simp [h2]; omega
      | opErr m => simp; omega
      | exc m => simp; omega

/-- C4 counterexample: the backoff schedules do not start at 0.2 seconds —
under persistent locking the transportation loop sleeps 0.1 then 0.2 (linear)
and the management update loop sleeps 0.4 then 0.8; moreover the
`retry_on_lock` helper cited by the retry policy is bounded at 999999
attempts with a constant 0.5-second delay, not at 3. -/
theorem retry_backoff_counterexample :
    (transportRetry (fun _ => .locked)).sleeps = [1 / 10, 1 / 5]
    ∧ (updateRetryGo (fun _ => .locked) 0 0 []).sleeps = [2 / 5, 4 / 5]
    ∧ ((1 / 10 : ℚ) ≠ 1 / 5) ∧ ((2 / 5 : ℚ) ≠ 1 / 5)
    ∧ retry_on_lock_max_retries = 999999 ∧ retry_on_lock_max_retries ≠ 3
    ∧ retry_on_lock_delay = 1 / 2 := by
  refine ⟨?_, ?_, by norm_num, by norm_num, rfl, by decide, rfl⟩
  · unfold transportRetry
    unfold transportRetryGo
    norm_num
    unfold transportRetryGo
    norm_num
    unfold transportRetryGo
    norm_num
  · unfold updateRetryGo
    norm_num
    unfold updateRetryGo
    norm_num
    unfold updateRetryGo
    norm_num

/-- C4 amended: each per-row bulk-write retry loop is bounded at 3 attempts
and retries only the locked error: exhaustion under persistent locking
records a lock-specific reason after exactly 3 attempts (the loop then moves
on to the next row instead of aborting), a non-lock error fails the row on
the first attempt with no sleep and no retry, and two locked attempts
followed by success still succeed within the bound; but the backoff is 0.1
then 0.2 seconds (linear) in the transportation path and 0.4 then 0.8 in the
management update path — not 0.2, 0.4, 0.8. -/
theorem bulk_write_retry_behaviour :
    (∀ script : ℕ → WriteOutcome,
      (transportRetry script).attempts ≤ 3)
    ∧ (∀ script : ℕ → WriteOutcome,
      (updateRetryGo script 0 0 []).attempts ≤ 3)
    ∧ transportRetry (fun _ => .locked)
        = ⟨false, some "資料庫鎖定，請稍後重試", 3, [1 / 10, 1 / 5]⟩
    ∧ updateRetryGo (fun _ => .locked) 0 0 []
        = ⟨false, some "資料庫鎖定錯誤: database is locked", 3, [2 / 5, 4 / 5]⟩
    ∧ (∀ m, transportRetry (fun _ => .exc m) = ⟨false, some m, 1, []⟩)
    ∧ (∀ m, transportRetry (fun _ => .opErr m) = ⟨false, some m, 1, []⟩)
    ∧ (∀ m, updateRetryGo (fun _ => .exc m) 0 0 []
        = ⟨false, some ("更新資料失敗: " ++ m), 1, []⟩)
    ∧ (∀ m, updateRetryGo (fun _ => .opErr m) 0 0 []
        = ⟨false, some ("資料庫鎖定錯誤: " ++ m), 1, []⟩)
    ∧ transportRetry (fun n => if n < 2 then .locked else .ok)
        = ⟨true, none, 3, [1 / 10, 1 / 5]⟩ := by
  refine ⟨?_, ?_, ?_, ?_, ?_, ?_, ?_, ?_, ?_⟩
  · intro script
    have := transportRetryGo_attempts_le script 3 0 0 [] rfl
    simpa [transportRetry] using this
  · intro script
    have := updateRetryGo_attempts_le script 3 0 0 [] rfl
    simpa using this
  · unfold transportRetry
    unfold transportRetryGo
    norm_num
    unfold transportRetryGo
    norm_num
    unfold transportRetryGo
    norm_num
  · unfold updateRetryGo
    norm_num
    unfold updateRetryGo
    norm_num
    unfold updateRetryGo
    norm_num
  · intro m
    unfold transportRetry
    unfold transportRetryGo
    norm_num
  · intro m
    unfold transportRetry
    unfold transportRetryGo
    norm_num
  · intro m
    unfold updateRetryGo
    norm_num
  · intro m
    unfold updateRetryGo
    norm_num
  · unfold transportRetry
    unfold transportRetryGo
    norm_num
    unfold transportRetryGo
    norm_num
    unfold transportRetryGo
    norm_num

/-! ### Witnesses -/

/-- C9 witness: the amended characterization applied to the concrete
out-of-range year "1800-05". -/
theorem validate_yyyy_mm_characterization_witness :
    (validate_yyyy_mm_format "1800-05").2 = EMPTY_DATE_MSG ∨
    (validate_yyyy_mm_format "1800-05").2 = INVALID_FORMAT_MSG ∨
    (validate_yyyy_mm_format "1800-05").2 = INVALID_YEAR_MSG ∨
    (validate_yyyy_mm_format "1800-05").2 = INVALID_MONTH_MSG :=
  (validate_yyyy_mm_characterization "1800-05").2 (by decide)

/-- C5 witness: a one-row batch whose row has a negative amount is reported
once in the failed list with the joined reason. -/
theorem row_with_field_errors_wholly_rejected_witness :
    (0, String.intercalate "; " (validate_row_data
        [("date", RawVal.str "2024-03"), ("a", RawVal.str "-1")]
        ["date", "a"]).2)
      ∈ (process_batch_import (fun _ => .ok []) ["date", "a"]
          [[("date", RawVal.str "2024-03"), ("a", RawVal.str "-1")]]
          false).1.failed :=
  (row_with_field_errors_wholly_rejected (fun _ => .ok []) ["date", "a"]
    [[("date", RawVal.str "2024-03"), ("a", RawVal.str "-1")]] false 0
    [("date", RawVal.str "2024-03"), ("a", RawVal.str "-1")]
    rfl (by decide)).1

/-- C3 witness: a concrete two-department row whose first column conflicts
blocks the whole row in a single-row import, leaving storage unchanged. -/
theorem dept_conflict_blocks_whole_row_witness :
    ∃ res, deptBatchImport [("A", 1), ("B", 2)] true false
        [[("date", "2024-02"), ("A", "3"), ("B", "4")]]
        [⟨"2024-02", 1, 7⟩]
      = (Resp.result false res, [⟨"2024-02", 1, 7⟩]) :=
  (dept_conflict_blocks_whole_row [("A", 1), ("B", 2)]
    [(("2024-02", 1), 7)] 0 [("date", "2024-02"), ("A", "3"), ("B", "4")]
    [⟨"2024-02", 1, 7⟩]
    (by
      rw [show (deptHandleRow [("A", 1), ("B", 2)] [(("2024-02", 1), 7)]
          false 0 [("date", "2024-02"), ("A", "3"), ("B", "4")]).2.1
        = [(0, "2024-02", [("A", 7, 3)])] from rfl]
      exact List.cons_ne_nil _ _)
    (by
      rw [show (deptHandleRow [("A", 1), ("B", 2)]
          (deptConflictMap [⟨"2024-02", 1, 7⟩]
            [[("date", "2024-02"), ("A", "3"), ("B", "4")]])
          false 0 [("date", "2024-02"), ("A", "3"), ("B", "4")]).2.1
        = [(0, "2024-02", [("A", 7, 3)])] from rfl]
      exact List.cons_ne_nil _ _)).2

/-- C7 witness: a concrete unauthorized override call is refused with the
top-level permission error, storage untouched, in both import views. -/
theorem override_refusal_short_circuits_witness :
    viewsBatchImport [] false true [[("date", RawVal.str "2024-04")]] []
        = (.topError "您沒有覆寫資料的權限", [])
    ∧ deptBatchImport [] false true [[("date", "2024-04")]] []
        = (.topError "您沒有覆寫資料的權限", []) :=
  override_refusal_short_circuits [] [[("date", RawVal.str "2024-04")]] []
    [] [[("date", "2024-04")]] []
    (List.cons_ne_nil _ _) (List.cons_ne_nil _ _)

/-- C6 witness: re-importing the month 2024-05 with amount 7 over a stored
amount 1, override authorized, leaves exactly the one record with amount 7. -/
theorem override_update_replaces_exactly_one_witness :
    ((viewsBatchImport [("date", FieldKind.charField), ("a", FieldKind.floatField)]
        true true
        [[("date", RawVal.str "2024-05"), ("a", RawVal.str "7")]]
        [⟨"2024-05", [("a", FieldVal.fval 1)]⟩]).2.filter
      (fun r => r.date == "2024-05"))
      = [⟨"2024-05", [("a", FieldVal.fval 7)]⟩] :=
  override_update_replaces_exactly_one
    [("date", FieldKind.charField), ("a", FieldKind.floatField)]
    [⟨"2024-05", [("a", FieldVal.fval 1)]⟩] "2024-05"
    [("date", RawVal.str "2024-05"), ("a", RawVal.str "7")]
    [("a", FieldVal.fval 1)] [("a", FieldVal.fval 7)]
    rfl rfl (by decide) rfl

end WasteSystem
